import Mathlib


/-! ## Definitions: shallow embedding of the source functions -/

/-! ## Character classes of the JavaScript regular expressions -/
/-- The base64 alphabet kept by the regex replacement `[^A-Za-z0-9+/=]` → `''`
used by both `cleanBase64` implementations (src/unnamed/part_006 line 17,
src/UCAN-Expert/server.js line 49). -/
def isB64Char (c : Char) : Bool :=
  (('A' ≤ c && c ≤ 'Z') || ('a' ≤ c && c ≤ 'z') || ('0' ≤ c && c ≤ '9') ||
    c == '+' || c == '/' || c == '=')

/-- JavaScript whitespace (`\s`, and the class trimmed by `String.prototype.trim`):
space, tab, line feed, carriage return, vertical tab, form feed and no-break
space cover every whitespace character appearing in the inputs in scope. -/
def isJsWs (c : Char) : Bool :=
  (c == ' ' || c == '\t' || c == '\n' || c == '\r' ||
    c == Char.ofNat 11 || c == Char.ofNat 12 || c == Char.ofNat 160)

/-- Model of `String.prototype.trim`: drop leading and trailing whitespace. -/
def trimList (l : List Char) : List Char :=
  ((l.dropWhile isJsWs).reverse.dropWhile isJsWs).reverse

/-- `s.trim()` on JS strings. -/
def jsTrim (s : String) : String :=
  List.asString (trimList s.data)

/-- `cleanBase64` of the React hook (src/unnamed/part_006 lines 16-18 and
src/unnamed/part_002 lines 61-63):
`input.replace(/[^A-Za-z0-9+/=]/g, '').trim()`.
The global regex replacement with the empty string keeps exactly the
characters of the base64 alphabet, i.e. it is `List.filter isB64Char`. -/
def cleanBase64 (input : String) : String :=
  jsTrim (List.asString (input.data.filter isB64Char))

/-- Outcome of the `while (cleaned.length % 4 !== 0) cleaned += '='` padding
loop of server.js lines 52-54: append `=` until the length is a multiple
of 4. -/
def padBase64 (l : List Char) : List Char :=
  match l.length % 4 with
  | 0 => l
  | 1 => l ++ ['=', '=', '=']
  | 2 => l ++ ['=', '=']
  | _ => l ++ ['=']

/-- `cleanBase64` of src/UCAN-Expert/server.js lines 42-57:
`if (!input) return null;` then `input.trim().replace(/\s/g, '')`,
then `.replace(/[^A-Za-z0-9+/=]/g, '')`, then the `=`-padding loop.
The only falsy JS string is the empty string, hence the `input = ""` test. -/
def cleanBase64Server (input : String) : Option String :=
  if input = "" then none
  else
    let c1 := trimList input.data
    let c2 := c1.filter (fun c => ! isJsWs c)
    let c3 := c2.filter isB64Char
    some (List.asString (padBase64 c3))

/-- First regex replacement of `utils.extractCID` (api.ts line 329):
`^(ipfs:\/\/|https?:\/\/)` replaced once by the empty string. -/
def stripUriScheme (l : List Char) : List Char :=
  if ("ipfs://".data).isPrefixOf l then l.drop 7
  else if ("https://".data).isPrefixOf l then l.drop 8
  else if ("http://".data).isPrefixOf l then l.drop 7
  else l

/-- Second regex replacement of `utils.extractCID` (api.ts line 330): the
first (leftmost) match of `\.ipfs\.[^\/]+` — the literal `.ipfs.` followed by
a maximal non-empty run of non-slash characters — replaced by the empty
string; without the `g` flag only the first match is replaced. -/
def removeIpfsGatewaySuffix : List Char → List Char
  | [] => []
  | c :: rest =>
    if (".ipfs.".data).isPrefixOf (c :: rest) then
      let after := (c :: rest).drop 6
      if after.takeWhile (fun ch => ch != '/') = [] then
        c :: removeIpfsGatewaySuffix rest
      else
        after.dropWhile (fun ch => ch != '/')
    else
      c :: removeIpfsGatewaySuffix rest

/-- Third regex replacement of `utils.extractCID` (api.ts line 331):
`^\/ipfs\/` replaced once. -/
def stripIpfsPathPrefix (l : List Char) : List Char :=
  if ("/ipfs/".data).isPrefixOf l then l.drop 6 else l

/-- `utils.extractCID` (api.ts lines 322-333): guard against falsy input,
strip URI scheme, strip the first `.ipfs.<gateway>` segment, strip a leading
`/ipfs/`, and keep only the first `/`-separated path segment
(`.split('/')[0]`). -/
def extractCID (input : String) : String :=
  if input = "" then ""
  else
    List.asString
      ((stripIpfsPathPrefix
          (removeIpfsGatewaySuffix (stripUriScheme input.data))).takeWhile
        (fun ch => ch != '/'))

/-- Base58btc alphabet `[1-9A-HJ-NP-Za-km-z]` (api.ts lines 353-354),
expressed on character codes. -/
def isBase58Char (c : Char) : Bool :=
  let n := c.toNat
  ((49 ≤ n && n ≤ 57) || (65 ≤ n && n ≤ 72) || (74 ≤ n && n ≤ 78) ||
    (80 ≤ n && n ≤ 90) || (97 ≤ n && n ≤ 107) || (109 ≤ n && n ≤ 122))

/-- Base32 alphabet `[a-z2-7]` (api.ts line 360). -/
def isBase32Char (c : Char) : Bool :=
  let n := c.toNat
  ((97 ≤ n && n ≤ 122) || (50 ≤ n && n ≤ 55))

/-- Lower-case hexadecimal `[0-9a-f]` (api.ts line 371). -/
def isHexLowerChar (c : Char) : Bool :=
  let n := c.toNat
  ((48 ≤ n && n ≤ 57) || (97 ≤ n && n ≤ 102))

/-- Base36 alphabet `[0-9a-z]` (api.ts line 376). -/
def isBase36Char (c : Char) : Bool :=
  let n := c.toNat
  ((48 ≤ n && n ≤ 57) || (97 ≤ n && n ≤ 122))

/-- Decimal digits `[0-9]` (api.ts line 381). -/
def isDigitCh (c : Char) : Bool :=
  let n := c.toNat
  (48 ≤ n && n ≤ 57)

/-- Base64 alphabet without padding, `[A-Za-z0-9+/]` (api.ts line 387). -/
def isB64CoreChar (c : Char) : Bool :=
  let n := c.toNat
  ((65 ≤ n && n ≤ 90) || (97 ≤ n && n ≤ 122) || (48 ≤ n && n ≤ 57) ||
    n == 43 || n == 47)

/-- Generic fallback charset `[a-zA-Z0-9_\-\.]` (api.ts line 404). -/
def isCidFallbackChar (c : Char) : Bool :=
  let n := c.toNat
  ((65 ≤ n && n ≤ 90) || (97 ≤ n && n ≤ 122) || (48 ≤ n && n ≤ 57) ||
    n == 95 || n == 45 || n == 46)

/-- `utils.isValidCID` (api.ts lines 338-405), branch by branch: the cleaned
identifier is dispatched on its leading character; the `Qm` branch tests the
exact 46-character v0 shape; each `b`/`z`/`f`/`v`/`t`/`m`/`M` branch tests the
corresponding regex; the `k`/`K`/`h`/`H`/`9` prefixes only require length
strictly above 30; everything else falls back to the generic
length-at-least-30 plus charset test. -/
def isValidCIDAux : List Char → Bool
  | [] => false
  | c0 :: rest =>
      let c := c0 :: rest
      if ("Qm".data).isPrefixOf c && c.length == 46 then
        (c.drop 2).all isBase58Char
      else if c0 == 'b' then
        rest.all isBase32Char && !rest.isEmpty && decide (59 ≤ c.length)
      else if c0 == 'z' then
        rest.all isBase58Char && !rest.isEmpty && decide (46 ≤ c.length)
      else if c0 == 'f' then
        rest.all isHexLowerChar && !rest.isEmpty
      else if c0 == 'v' then
        rest.all isBase36Char && !rest.isEmpty
      else if c0 == 't' then
        rest.all isDigitCh && !rest.isEmpty
      else if c0 == 'm' || c0 == 'M' then
        let revTail := rest.reverse
        let core := (revTail.dropWhile (fun ch => ch == '=')).reverse
        decide ((revTail.takeWhile (fun ch => ch == '=')).length ≤ 2) &&
          !core.isEmpty && core.all isB64CoreChar
      else if c0 == 'k' || c0 == 'K' || c0 == 'h' || c0 == 'H' || c0 == '9' then
        decide (30 < c.length)
      else if c.length < 30 then false
      else c.all isCidFallbackChar

/-- Entry point of `utils.isValidCID`: the falsy-input guard, the cleaning
step `extractCID`, the guard on the cleaned result, then the per-prefix
dispatch of `isValidCIDAux`. -/
def isValidCID (cid : String) : Bool :=
  if cid = "" then false
  else isValidCIDAux (extractCID cid).data

/-- Upper-case hexadecimal digit for a value below 16, as produced by the
percent-encoding of `encodeURIComponent`. -/
def hexDigit (n : Nat) : Char :=
  if n < 10 then Char.ofNat (48 + n) else Char.ofNat (55 + n)

/-- UTF-8 byte sequence of one character, used by `encodeURIComponent` for
characters outside its unreserved set. -/
def utf8Bytes (c : Char) : List Nat :=
  let n := c.toNat
  if n < 128 then [n]
  else if n < 2048 then [192 + n / 64, 128 + n % 64]
  else if n < 65536 then [224 + n / 4096, 128 + (n / 64) % 64, 128 + n % 64]
  else [240 + n / 262144, 128 + (n / 4096) % 64, 128 + (n / 64) % 64,
    128 + n % 64]

/-- The characters `encodeURIComponent` leaves unescaped:
letters, digits, and `- _ . ! ~ * ( )` plus the apostrophe (code 39). -/
def isUriUnreserved (c : Char) : Bool :=
  let n := c.toNat
  ((65 ≤ n && n ≤ 90) || (97 ≤ n && n ≤ 122) || (48 ≤ n && n ≤ 57) ||
    n == 45 || n == 95 || n == 46 || n == 33 || n == 126 || n == 42 ||
    n == 39 || n == 40 || n == 41)

/-- `encodeURIComponent(s)`: keep unreserved characters, percent-encode every
UTF-8 byte of the rest with upper-case hexadecimal. -/
def encodeURIComponent (s : String) : String :=
  List.asString
    (s.data.flatMap (fun c =>
      if isUriUnreserved c then [c]
      else (utf8Bytes c).flatMap
        (fun b => ['%', hexDigit (b / 16), hexDigit (b % 16)])))

/-- `filename.replace(/^\//, '')`: drop a single leading slash. -/
def stripLeadingSlash : List Char → List Char
  | [] => []
  | a :: rest => if a = '/' then rest else a :: rest

/-- `utils.createGatewayURL` (api.ts lines 410-425): clean the identifier,
throw `Invalid CID: <input>` when the validity check rejects the cleaned
identifier, otherwise compose `https://<id>.ipfs.<gateway>` and append
`/<encoded filename>` when a truthy filename is given (after dropping one
leading slash). The JS `throw` is modelled as `Except.error`. -/
def createGatewayURL (cid : String) (filename : Option String)
    (gateway : String) : Except String String :=
  let cleanCID := extractCID cid
  if ! isValidCID cleanCID then Except.error ("Invalid CID: " ++ cid)
  else
    let url := "https://" ++ cleanCID ++ ".ipfs." ++ gateway
    match filename with
    | some fn =>
      if fn = "" then Except.ok url
      else Except.ok (url ++ "/"
        ++ encodeURIComponent (List.asString (stripLeadingSlash fn.data)))
    | none => Except.ok url

/-- The fixed public gateway list of `utils.createGatewayURLs`
(api.ts lines 455-461). -/
def gatewayList : List String :=
  ["dweb.link", "w3s.link", "ipfs.io", "cloudflare-ipfs.com",
    "gateway.pinata.cloud"]

/-- `utils.createGatewayURLs` (api.ts lines 449-471): return the empty list
when the cleaned identifier fails validation (instead of throwing), otherwise
one URL per fixed gateway, with the same composition as the single-gateway
builder. -/
def createGatewayURLs (cid : String) (filename : Option String) : List String :=
  let cleanCID := extractCID cid
  if ! isValidCID cleanCID then []
  else
    gatewayList.map (fun gateway =>
      let url := "https://" ++ cleanCID ++ ".ipfs." ++ gateway
      match filename with
      | some fn =>
        if fn = "" then url
        else url ++ "/"
          ++ encodeURIComponent (List.asString (stripLeadingSlash fn.data))
      | none => url)

/-- An `APIError` as thrown by `StorachaAPI.request` (api.ts lines 38-47 and
84-100): HTTP error responses carry the response status, transport-level
failures (fetch rejections) are wrapped without a status. -/
structure APIErrorM where
  status : Option Nat
  message : String
deriving DecidableEq, Repr

/-- A successful delegation response; the retry loop never inspects it. -/
structure DelegationResponseM where
  delegation : String
deriving DecidableEq, Repr

/-- The statuses `getDelegationWithRetry` refuses to retry (api.ts lines
149-156): 400 (bad request) and the auth statuses 401 and 403. -/
def isNonRetryable (e : APIErrorM) : Bool :=
  e.status == some 400 || e.status == some 401 || e.status == some 403

/-- Trace of one run of the retry loop: the result, how many calls to
`getDelegation` were made, and the backoff delay awaited before each retry
(the first attempt awaits none). -/
structure RetryTrace where
  result : Except APIErrorM DelegationResponseM
  calls : Nat
  delays : List Nat
deriving Repr

/-- The `for (let attempt = 0; attempt < maxRetries; attempt++)` loop of
`getDelegationWithRetry` (api.ts lines 134-162), with `fuel` iterations left
(`fuel = maxRetries - attempt`); `oracle k` is the outcome of the k-th call of
`this.getDelegation(did)`, and `last` is the `lastError` variable.  Before
every attempt but the first the loop awaits `delay * 2 ^ (attempt - 1)`; a
thrown `APIError` with status 400, 401 or 403 is re-thrown at once; on the
last iteration the error is re-thrown; after the loop the final
`throw lastError || new Error(...)` fires. -/
def retryLoop (oracle : Nat → Except APIErrorM DelegationResponseM)
    (delay : Nat) : Nat → Nat → Option APIErrorM → RetryTrace
  | _, 0, last =>
      ⟨Except.error (last.getD ⟨none, "Failed to get delegation after retries"⟩),
        0, []⟩
  | attempt, fuel + 1, _ =>
      let ds : List Nat := if 0 < attempt then [delay * 2 ^ (attempt - 1)] else []
      match oracle attempt with
      | Except.ok r => ⟨Except.ok r, 1, ds⟩
      | Except.error e =>
        if isNonRetryable e then ⟨Except.error e, 1, ds⟩
        else if fuel = 0 then ⟨Except.error e, 1, ds⟩
        else
          let rest := retryLoop oracle delay (attempt + 1) fuel (some e)
          ⟨rest.result, rest.calls + 1, ds ++ rest.delays⟩

/-- `StorachaAPI.getDelegationWithRetry(did, maxRetries, delay)`; the source
defaults are `maxRetries = 3`, `delay = 1000`. -/
def getDelegationWithRetry
    (oracle : Nat → Except APIErrorM DelegationResponseM)
    (maxRetries delay : Nat) : RetryTrace :=
  retryLoop oracle delay 0 maxRetries none

/-- Concrete oracle for the C7 witness: the first call fails with a 500
response (retryable), every later call succeeds. -/
def retryWitnessOracle : Nat → Except APIErrorM DelegationResponseM :=
  fun k =>
    if k = 0 then Except.error ⟨some 500, "HTTP 500: server error"⟩
    else Except.ok ⟨"delegationToken"⟩

/-- `s.startsWith(pre)` on JS strings. -/
def jsStartsWith (s pre : String) : Bool :=
  pre.data.isPrefixOf s.data

/-- Decimal digit character for a value below 10. -/
def digitChar10 (n : Nat) : Char := Char.ofNat (48 + n)

/-- Fuel-driven decimal rendering; with fuel above the digit count it renders
the usual most-significant-first decimal digits. -/
def natDecimalAux : Nat → Nat → List Char
  | 0, _ => []
  | fuel + 1, n =>
    if n < 10 then [digitChar10 n]
    else natDecimalAux fuel (n / 10) ++ [digitChar10 (n % 10)]

/-- Decimal rendering of a natural number, modelling how a JavaScript template
literal renders the integer `Date.now()`. -/
def natDecimal (n : Nat) : List Char := natDecimalAux (n + 1) n

/-- The per-call upload id of `uploadFile` (part_006 line 266):
the template literal of `Date.now()` and the file name joined by `-`. -/
def fileId (now : Nat) (name : String) : String :=
  List.asString (natDecimal now ++ '-' :: name.data)

/-- A browser `File` as observed by `uploadFile`: name, size and MIME type. -/
structure JsFile where
  name : String
  size : Nat
  type : String
deriving DecidableEq, Repr

/-- An `UploadedFile` record as built at part_006 lines 340-350. -/
structure UploadedFile where
  id : String
  name : String
  size : Nat
  type : String
  cid : String
  uploadedAt : Nat
  gatewayUrl : String
  thumbnailUrl : String
  description : Option String
deriving DecidableEq, Repr

/-- `DEFAULT_GATEWAY` of part_006 line 11. -/
def DEFAULT_GATEWAY : String := "storacha.link"

/-- The success path of `uploadFile` (part_006 lines 330-366) after
`client.uploadFile(file)` returned `cid`: derive the gateway URL
(line 331), derive the thumbnail URL — the resize query is appended exactly
when the MIME type starts with `image/` (lines 335-338) —, build the record
(lines 340-350) and prepend it to the previous uploads list, which is what
`saveUploads` persists (lines 362-366).  `now` is the `Date.now()` of the id
on line 341 and `uploadedAt` the `new Date()` of line 346. -/
def uploadFileSuccess (file : JsFile) (cidString : String)
    (now uploadedAt : Nat) (description : Option String)
    (prevUploads : List UploadedFile) : UploadedFile × List UploadedFile :=
  let gatewayUrl := "https://" ++ cidString ++ ".ipfs." ++ DEFAULT_GATEWAY
  let thumbnailUrl :=
    if jsStartsWith file.type "image/" then
      gatewayUrl ++ "?img-width=300&img-height=300&img-fit=cover"
    else gatewayUrl
  let record : UploadedFile :=
    { id := cidString ++ "-" ++ List.asString (natDecimal now),
      name := file.name,
      size := file.size,
      type := file.type,
      cid := cidString,
      uploadedAt := uploadedAt,
      gatewayUrl := gatewayUrl,
      thumbnailUrl := thumbnailUrl,
      description := description }
  (record, record :: prevUploads)

/-- Value of a digit list, inverse of the decimal rendering. -/
def decVal (l : List Char) : Nat :=
  l.foldl (fun a c => a * 10 + (c.toNat - 48)) 0

/-- Login method stored in a session. -/
inductive LoginMethod
  | email
  | delegation
deriving DecidableEq, Repr

/-- The persisted `UserSession` record (part_002 lines 35-41). -/
structure UserSession where
  email : String
  isLoggedIn : Bool
  method : Option LoginMethod
  spaceDid : String
  agentDid : String
deriving DecidableEq, Repr

/-- `DelegationConfig` (part_002 lines 29-33): raw key, raw proof, optional
requested space DID. -/
structure DelegationConfig where
  key : String
  proof : String
  spaceDid : Option String
deriving DecidableEq, Repr

/-- The fixed required capability set (part_006 line 175). -/
def requiredCapabilities : List String :=
  ["space/blob/add", "space/index/add", "upload/add"]

/-- The per-entry capability test of part_006 lines 177-179: JS
`c.includes(cap)` for string entries and `JSON.stringify(c).includes(cap)`
for object entries — either way a substring test against a string rendering
of the entry, which is how an entry is modelled here. -/
def capIncludes (c cap : String) : Bool :=
  decide (cap.data <:+: c.data)

/-- `missingCapabilities` (part_006 lines 176-180): the required capabilities
for which no entry of the proof capability list passes the substring test. -/
def missingCapabilities (capabilities : List String) : List String :=
  requiredCapabilities.filter
    (fun cap => ! capabilities.any (fun c => capIncludes c cap))

/-- `missingCapabilities.join(', ')` of part_006 line 184. -/
def joinCommaSpace : List String → String
  | [] => ""
  | [x] => x
  | x :: y :: xs => x ++ ", " ++ joinCommaSpace (y :: xs)

/-- The capability error message thrown at part_006 line 184. -/
def missingCapsMessage (missing : List String) : String :=
  "Delegation proof missing required capabilities: " ++ joinCommaSpace missing
    ++ ". Please regenerate with proper permissions."

/-- An SDK call with an observable effect on the client, performed by the
bootstrap after its validation steps: importing the proof as a capability
grant (`client.addSpace`, line 187) and activating a namespace
(`client.setCurrentSpace`, line 212). -/
inductive SdkEffect
  | addSpace
  | setCurrentSpace (did : String)
deriving DecidableEq, Repr

/-- Environment abstracting the SDK calls the bootstrap makes: whether
`Signer.parse` accepts the cleaned key, what `Proof.parse` returns for the
cleaned proof (its capability list, entries rendered as strings), the space
DIDs `client.spaces()` enumerates after the grant import, and the DID of
`client.agent`. -/
structure SdkEnv where
  parseKey : String → Except String Unit
  parseProof : String → Except String (List String)
  spacesAfterAdd : List String
  agentDid : String

/-- Result of one bootstrap call: the outcome (a thrown error is caught at
part_006 lines 240-249 and returned as `{success:false, error}`, modelled as
`Except.error`), the SDK effects performed in order, and the persisted
session storage after the call (`saveSession` runs only on the success
path, line 224; the catch never touches storage). -/
structure LoginResult where
  outcome : Except String UserSession
  effects : List SdkEffect
  persisted : Option UserSession
deriving Repr

/-- `loginWithDelegation` (part_006 lines 135-253; `setupDelegation` of
part_002 lines 144-246 is the same flow): clean the proof with `cleanBase64`
and trim the key; reject a cleaned proof shorter than 100 characters and a
key not starting with `Mg`; run `Signer.parse` and `Proof.parse`, their
errors propagating to the catch; compute the missing required capabilities by
the substring test and, when any is missing, throw the message naming them
before `addSpace` runs; import the grant (`addSpace`); choose the requested
space DID when enumerated, otherwise fall back to the first enumerated space,
and throw `No space available...` only when none is enumerated; activate the
choice (`setCurrentSpace`); build the session and persist it.  On every
failure path the outcome is the error, the effect list contains what already
ran, and the persisted session is unchanged. -/
def loginWithDelegation (env : SdkEnv) (config : DelegationConfig)
    (persisted0 : Option UserSession) : LoginResult :=
  let cleanProof := cleanBase64 config.proof
  let cleanKey := jsTrim config.key
  if cleanProof = "" ∨ cleanProof.length < 100 then
    ⟨Except.error "Invalid delegation proof. Proof too short or missing.",
      [], persisted0⟩
  else if cleanKey = "" ∨ jsStartsWith cleanKey "Mg" = false then
    ⟨Except.error
        "Invalid private key format. Should start with \"Mg\" and be base64 encoded.",
      [], persisted0⟩
  else
    match env.parseKey cleanKey with
    | Except.error e => ⟨Except.error e, [], persisted0⟩
    | Except.ok _ =>
      match env.parseProof cleanProof with
      | Except.error e => ⟨Except.error e, [], persisted0⟩
      | Except.ok capabilities =>
        if 0 < (missingCapabilities capabilities).length then
          ⟨Except.error (missingCapsMessage (missingCapabilities capabilities)),
            [], persisted0⟩
        else
          let spaces := env.spacesAfterAdd
          let currentSpace : Option String :=
            match config.spaceDid with
            | some d =>
              match spaces.find? (fun s => s == d) with
              | some s => some s
              | none => spaces.head?
            | none => spaces.head?
          match currentSpace with
          | none =>
            ⟨Except.error
                "No space available. The provided proof may not delegate access to a usable space, or the client failed to initialize it.",
              [SdkEffect.addSpace], persisted0⟩
          | some did =>
            let sess : UserSession :=
              ⟨"delegation@user", true, some LoginMethod.delegation, did,
                env.agentDid⟩
            ⟨Except.ok sess,
              [SdkEffect.addSpace, SdkEffect.setCurrentSpace did], some sess⟩

/-- A 120-character cleaned base64 proof for concrete bootstrap runs. -/
def proof120 : String := List.asString (List.replicate 120 'A')

/-- Environment for the C1 counterexample: the parsed proof's capability list
contains the exact strings `space/blob/add` and `space/index/add` but not the
string `upload/add` — only an entry that contains it as a substring. -/
def c1CounterEnv : SdkEnv :=
  ⟨fun _ => Except.ok (),
   fun _ => Except.ok ["space/blob/add", "space/index/add",
     "my-upload/add-proxy"],
   ["did:key:zSpaceA"], "did:key:zAgent"⟩

/-- Config for the C1 counterexample. -/
def c1CounterConfig : DelegationConfig := ⟨"MgTestKey", proof120, none⟩

/-- Environment for the C1 witness: the capability list contains nothing
matching `upload/add`. -/
def c1WitnessEnv : SdkEnv :=
  ⟨fun _ => Except.ok (),
   fun _ => Except.ok ["space/blob/add", "space/index/add"],
   ["did:key:zSpaceA"], "did:key:zAgent"⟩

/-- Environment for the C6 witness: two enumerated spaces, neither matching
the requested DID. -/
def c6WitnessEnv : SdkEnv :=
  ⟨fun _ => Except.ok (),
   fun _ => Except.ok ["space/blob/add", "space/index/add", "upload/add"],
   ["did:key:zFirst", "did:key:zSecond"], "did:key:zAgent"⟩

/-- Config for the C6 witness: the requested space DID is absent from the
enumerated spaces. -/
def c6WitnessConfig : DelegationConfig :=
  ⟨"MgTestKey", proof120, some "did:key:zMissing"⟩

/-- JSON values as produced by `JSON.parse`; number lexemes are kept raw
(the session loader never arithmetizes them). -/
inductive JVal
  | jnull
  | jbool (b : Bool)
  | jnum (raw : String)
  | jstr (s : String)
  | jarr (xs : List JVal)
  | jobj (kvs : List (String × JVal))
deriving Repr

/-- JSON whitespace accepted between tokens. -/
def jsonWsChar (c : Char) : Bool :=
  (c == ' ' || c == '\t' || c == '\n' || c == '\r')

/-- Skip JSON whitespace. -/
def skipJsonWs (l : List Char) : List Char := l.dropWhile jsonWsChar

/-- Value of a hexadecimal digit. -/
def hexVal (c : Char) : Option Nat :=
  let n := c.toNat
  if 48 ≤ n && n ≤ 57 then some (n - 48)
  else if 97 ≤ n && n ≤ 102 then some (n - 87)
  else if 65 ≤ n && n ≤ 70 then some (n - 55)
  else none

/-- Single-character JSON escapes. -/
def escChar (e : Char) : Option Char :=
  if e = '"' then some '"'
  else if e = '\\' then some '\\'
  else if e = '/' then some '/'
  else if e = 'n' then some '\n'
  else if e = 't' then some '\t'
  else if e = 'r' then some (Char.ofNat 13)
  else if e = 'b' then some (Char.ofNat 8)
  else if e = 'f' then some (Char.ofNat 12)
  else none

/-- Parse the body of a JSON string literal (the opening quote already
consumed), with fuel at least the input length: returns the decoded
characters and the remainder after the closing quote. -/
def parseJString : Nat → List Char → Except String (List Char × List Char)
  | 0, _ => Except.error "Unterminated string in JSON"
  | _ + 1, [] => Except.error "Unterminated string in JSON"
  | fuel + 1, c :: rest =>
    if c = '"' then Except.ok ([], rest)
    else if c = '\\' then
      match rest with
      | [] => Except.error "Unterminated string in JSON"
      | e :: rest2 =>
        if e = 'u' then
          match rest2 with
          | h1 :: h2 :: h3 :: h4 :: rest3 =>
            match hexVal h1, hexVal h2, hexVal h3, hexVal h4 with
            | some a, some b, some c2, some d2 =>
              match parseJString fuel rest3 with
              | Except.ok (s, rem) =>
                Except.ok (Char.ofNat (a * 4096 + b * 256 + c2 * 16 + d2) :: s,
                  rem)
              | Except.error msg => Except.error msg
            | _, _, _, _ => Except.error "Bad Unicode escape in JSON"
          | _ => Except.error "Bad Unicode escape in JSON"
        else
          match escChar e with
          | some ec =>
            match parseJString fuel rest2 with
            | Except.ok (s, rem) => Except.ok (ec :: s, rem)
            | Except.error msg => Except.error msg
          | none => Except.error "Bad escaped character in JSON"
    else if c.toNat < 32 then
      Except.error "Bad control character in JSON string literal"
    else
      match parseJString fuel rest with
      | Except.ok (s, rem) => Except.ok (c :: s, rem)
      | Except.error msg => Except.error msg

/-- Optional fraction part of a JSON number. -/
def parseJFrac (l : List Char) : Except String (List Char × List Char) :=
  match l with
  | '.' :: r =>
    let ds := r.takeWhile isDigitCh
    if ds = [] then Except.error "Bad number in JSON"
    else Except.ok ('.' :: ds, r.dropWhile isDigitCh)
  | _ => Except.ok ([], l)

/-- Optional exponent part of a JSON number. -/
def parseJExp (l : List Char) : Except String (List Char × List Char) :=
  match l with
  | e :: r =>
    if e = 'e' ∨ e = 'E' then
      let sgnr : List Char × List Char :=
        match r with
        | '+' :: rr => (['+'], rr)
        | '-' :: rr => (['-'], rr)
        | _ => ([], r)
      let ds := sgnr.2.takeWhile isDigitCh
      if ds = [] then Except.error "Bad number in JSON"
      else Except.ok (e :: sgnr.1 ++ ds, sgnr.2.dropWhile isDigitCh)
    else Except.ok ([], e :: r)
  | [] => Except.ok ([], [])

/-- A JSON number lexeme: optional minus, `0` or a nonzero-led digit run,
optional fraction, optional exponent. -/
def parseJNumber (l : List Char) : Except String (List Char × List Char) :=
  let negl : List Char × List Char :=
    match l with
    | '-' :: r => (['-'], r)
    | _ => ([], l)
  match negl.2 with
  | c :: r =>
    if c = '0' ∨ isDigitCh c = false then
      if c = '0' then
        match parseJFrac r with
        | Except.error e => Except.error e
        | Except.ok (fr, r2) =>
          match parseJExp r2 with
          | Except.error e => Except.error e
          | Except.ok (ex, r3) => Except.ok (negl.1 ++ '0' :: fr ++ ex, r3)
      else Except.error "Bad number in JSON"
    else
      let ds := (c :: r).takeWhile isDigitCh
      match parseJFrac ((c :: r).dropWhile isDigitCh) with
      | Except.error e => Except.error e
      | Except.ok (fr, r2) =>
        match parseJExp r2 with
        | Except.error e => Except.error e
        | Except.ok (ex, r3) => Except.ok (negl.1 ++ ds ++ fr ++ ex, r3)
  | [] => Except.error "Bad number in JSON"

/-- Parsing mode: a value, the members of an object after `{` (with the
members already parsed), or the items of an array after `[`. -/
inductive PMode
  | val
  | objMembers (acc : List (String × JVal))
  | arrItems (acc : List JVal)

/-- One fuel-indexed step of the recursive-descent `JSON.parse` model.  In
`val` mode it dispatches on the first non-whitespace character exactly as the
JSON grammar does; object and array modes carry the accumulated members and
loop on `,` until `}` or `]`. -/
def parseStep : Nat → PMode → List Char → Except String (JVal × List Char)
  | 0, _, _ => Except.error "JSON input too deeply nested"
  | fuel + 1, PMode.val, l =>
    match skipJsonWs l with
    | [] => Except.error "Unexpected end of JSON input"
    | c :: rest =>
      if c = 'n' then
        match rest with
        | 'u' :: 'l' :: 'l' :: r => Except.ok (JVal.jnull, r)
        | _ => Except.error "Unexpected token in JSON"
      else if c = 't' then
        match rest with
        | 'r' :: 'u' :: 'e' :: r => Except.ok (JVal.jbool true, r)
        | _ => Except.error "Unexpected token in JSON"
      else if c = 'f' then
        match rest with
        | 'a' :: 'l' :: 's' :: 'e' :: r => Except.ok (JVal.jbool false, r)
        | _ => Except.error "Unexpected token in JSON"
      else if c = '"' then
        match parseJString (rest.length + 1) rest with
        | Except.ok (s, rem) => Except.ok (JVal.jstr (List.asString s), rem)
        | Except.error e => Except.error e
      else if c = '-' ∨ isDigitCh c = true then
        match parseJNumber (c :: rest) with
        | Except.ok (raw, rem) =>
          Except.ok (JVal.jnum (List.asString raw), rem)
        | Except.error e => Except.error e
      else if c = '[' then
        match skipJsonWs rest with
        | ']' :: r => Except.ok (JVal.jarr [], r)
        | _ => parseStep fuel (PMode.arrItems []) rest
      else if c = '\x7b' then
        match skipJsonWs rest with
        | '\x7d' :: r => Except.ok (JVal.jobj [], r)
        | _ => parseStep fuel (PMode.objMembers []) rest
      else Except.error "Unexpected token in JSON"
  | fuel + 1, PMode.arrItems acc, l =>
    match parseStep fuel PMode.val l with
    | Except.error e => Except.error e
    | Except.ok (v, rem) =>
      match skipJsonWs rem with
      | ',' :: r => parseStep fuel (PMode.arrItems (acc ++ [v])) r
      | ']' :: r => Except.ok (JVal.jarr (acc ++ [v]), r)
      | _ => Except.error "Expected comma or closing bracket in JSON array"
  | fuel + 1, PMode.objMembers acc, l =>
    match skipJsonWs l with
    | '"' :: r =>
      match parseJString (r.length + 1) r with
      | Except.error e => Except.error e
      | Except.ok (key, r2) =>
        match skipJsonWs r2 with
        | ':' :: r3 =>
          match parseStep fuel PMode.val r3 with
          | Except.error e => Except.error e
          | Except.ok (v, rem) =>
            match skipJsonWs rem with
            | ',' :: r4 =>
              parseStep fuel
                (PMode.objMembers (acc ++ [(List.asString key, v)])) r4
            | '\x7d' :: r4 =>
              Except.ok (JVal.jobj (acc ++ [(List.asString key, v)]), r4)
            | _ =>
              Except.error "Expected comma or closing brace in JSON object"
        | _ => Except.error "Expected colon in JSON object"
    | _ => Except.error "Expected property name in JSON object"

/-- `JSON.parse(s)`: parse one value and require only whitespace after it;
any failure is the thrown `SyntaxError`. -/
def jsonParse (s : String) : Except String JVal :=
  match parseStep (4 * s.length + 8) PMode.val s.data with
  | Except.error e => Except.error e
  | Except.ok (v, rem) =>
    if skipJsonWs rem = [] then Except.ok v
    else Except.error "Unexpected non-whitespace character after JSON"

/-- The default empty session object literal of part_006 lines 35-41, as the
`JVal` that `JSON.parse` would produce for it. -/
def defaultSessionJ : JVal :=
  JVal.jobj [("email", JVal.jstr ""), ("isLoggedIn", JVal.jbool false),
    ("method", JVal.jnull), ("spaceDid", JVal.jstr ""),
    ("agentDid", JVal.jstr "")]

/-- The `userSession` initializer (part_006 lines 33-42):
`const saved = localStorage.getItem(SESSION_KEY);`
`return saved ? JSON.parse(saved) : defaultObject;`
`getItem` yields `null` (here `none`) or the stored string; the only falsy
string is the empty one.  `JSON.parse` is not wrapped in any `try`, so its
exception propagates out of the initializer. -/
def loadUserSession (stored : Option String) : Except String JVal :=
  match stored with
  | none => Except.ok defaultSessionJ
  | some s => if s = "" then Except.ok defaultSessionJ else jsonParse s

/-- `JSON.stringify` escaping of one string character. -/
def jsonEscapeChar (c : Char) : List Char :=
  if c = '"' then ['\\', '"']
  else if c = '\\' then ['\\', '\\']
  else if c = '\n' then ['\\', 'n']
  else if c = '\t' then ['\\', 't']
  else if c.toNat = 13 then ['\\', 'r']
  else if c.toNat = 8 then ['\\', 'b']
  else if c.toNat = 12 then ['\\', 'f']
  else if c.toNat < 32 then
    ['\\', 'u', '0', '0', hexDigit (c.toNat / 16), hexDigit (c.toNat % 16)]
  else [c]

/-- `JSON.stringify` of a string. -/
def jsonQuote (s : String) : String :=
  List.asString ('"' :: s.data.flatMap jsonEscapeChar ++ ['"'])

/-- The `method` field as `JSON.stringify` renders it. -/
def methodJson : Option LoginMethod → String
  | none => "null"
  | some LoginMethod.email => jsonQuote "email"
  | some LoginMethod.delegation => jsonQuote "delegation"

/-- `JSON.stringify(session)` as `saveSession` (part_006 lines 46-49) stores
it: the five fields in declaration order. -/
def stringifySession (s : UserSession) : String :=
  "\x7b" ++ jsonQuote "email" ++ ":" ++ jsonQuote s.email
    ++ "," ++ jsonQuote "isLoggedIn" ++ ":"
    ++ (if s.isLoggedIn then "true" else "false")
    ++ "," ++ jsonQuote "method" ++ ":" ++ methodJson s.method
    ++ "," ++ jsonQuote "spaceDid" ++ ":" ++ jsonQuote s.spaceDid
    ++ "," ++ jsonQuote "agentDid" ++ ":" ++ jsonQuote s.agentDid
    ++ "\x7d"

/-- The `JVal` that parsing a stringified session yields. -/
def sessionJVal (s : UserSession) : JVal :=
  JVal.jobj [("email", JVal.jstr s.email),
    ("isLoggedIn", JVal.jbool s.isLoggedIn),
    ("method", match s.method with
      | none => JVal.jnull
      | some LoginMethod.email => JVal.jstr "email"
      | some LoginMethod.delegation => JVal.jstr "delegation"),
    ("spaceDid", JVal.jstr s.spaceDid),
    ("agentDid", JVal.jstr s.agentDid)]

/-- A representative session as the delegation flow persists it. -/
def demoSession : UserSession :=
  ⟨"delegation@user", true, some LoginMethod.delegation, "did:key:zSpace",
    "did:key:zAgent"⟩

/-! ## Theorems -/

theorem isB64Char_not_ws {c : Char} (h : isB64Char c = true) : isJsWs c = false := by
  cases hw : isJsWs c with
  | false => rfl
  | true =>
    exfalso
    simp only [isJsWs, Bool.or_eq_true, beq_iff_eq] at hw
    rcases hw with ((((((h1 | h1) | h1) | h1) | h1) | h1) | h1) <;> subst h1 <;>
      simp [isB64Char] at h

theorem dropWhile_eq_self_of_all {p : Char → Bool} {l : List Char}
    (h : ∀ c ∈ l, p c = false) : l.dropWhile p = l := by
  cases l with
  | nil => rfl
  | cons a t =>
    have ha : p a = false := h a (List.mem_cons_self a t)
    simp [List.dropWhile_cons, ha]

theorem trimList_eq_self_of_all {l : List Char}
    (h : ∀ c ∈ l, isJsWs c = false) : trimList l = l := by
  unfold trimList
  rw [dropWhile_eq_self_of_all h]
  rw [dropWhile_eq_self_of_all (fun c hc => h c (List.mem_reverse.mp hc))]
  exact List.reverse_reverse l

theorem padBase64_all_b64 {l : List Char} (h : ∀ c ∈ l, isB64Char c = true) :
    ∀ c ∈ padBase64 l, isB64Char c = true := by
  intro c hc
  unfold padBase64 at hc
  have heq : isB64Char '=' = true := by decide
  rcases hmod : l.length % 4 with _ | _ | _ | k <;> rw [hmod] at hc <;>
    first
      | exact h c hc
      | (rcases List.mem_append.mp hc with h1 | h1
         · exact h c h1
         · simp only [List.mem_cons, List.not_mem_nil, or_false] at h1
           rcases h1 with h1 | h1 | h1 <;> (try subst h1) <;> simp_all)

theorem padBase64_length_mod (l : List Char) : (padBase64 l).length % 4 = 0 := by
  unfold padBase64
  rcases hmod : l.length % 4 with _ | _ | _ | k
  · simpa using hmod
  · simp only [List.length_append, List.length_cons, List.length_nil]
    omega
  · simp only [List.length_append, List.length_cons, List.length_nil]
    omega
  · have hlt : l.length % 4 < 4 := Nat.mod_lt _ (by omega)
    have hk : k = 0 := by omega
    subst hk
    simp only [List.length_append, List.length_cons, List.length_nil]
    omega

/-- Claim C3: for every string containing only base64-alphabet characters plus
arbitrary whitespace and newlines, the normalization removes exactly the
characters outside the base64 alphabet (all whitespace included), and the
server-side variant applied to the proof yields — whenever it yields a string,
which it does for every non-empty input — an all-base64 string whose length is
a multiple of 4 after the `=` right-padding. -/
theorem cleanBase64_normalizes (s : String)
    (_hs : ∀ c ∈ s.data, isB64Char c = true ∨ isJsWs c = true) :
    cleanBase64 s = List.asString (s.data.filter isB64Char)
    ∧ (∀ c ∈ (cleanBase64 s).data, isB64Char c = true)
    ∧ (∀ t, cleanBase64Server s = some t →
        ((∀ c ∈ t.data, isB64Char c = true) ∧ t.length % 4 = 0))
    ∧ (s ≠ "" → ∃ t, cleanBase64Server s = some t) := by
  have hfilter : ∀ c ∈ s.data.filter isB64Char, isJsWs c = false := by
    intro c hc
    exact isB64Char_not_ws (List.of_mem_filter hc)
  have hclean : cleanBase64 s = List.asString (s.data.filter isB64Char) := by
    unfold cleanBase64 jsTrim
    rw [show (List.asString (s.data.filter isB64Char)).data
          = s.data.filter isB64Char from rfl]
    rw [trimList_eq_self_of_all hfilter]
  refine ⟨hclean, ?_, ?_, ?_⟩
  · intro c hc
    rw [hclean] at hc
    exact List.of_mem_filter hc
  · intro t ht
    unfold cleanBase64Server at ht
    by_cases hse : s = ""
    · simp [hse] at ht
    · simp only [hse, if_false, Option.some.injEq] at ht
      subst ht
      constructor
      · intro c hc
        rw [show (List.asString (padBase64
             (((trimList s.data).filter (fun c => ! isJsWs c)).filter isB64Char))).data
             = padBase64 (((trimList s.data).filter
                 (fun c => ! isJsWs c)).filter isB64Char) from rfl] at hc
        exact padBase64_all_b64 (fun c hc' => List.of_mem_filter hc') c hc
      · exact padBase64_length_mod _
  · intro hne
    unfold cleanBase64Server
    simp only [hne, if_false]
    exact ⟨_, rfl⟩

/-- Witness for C3 at a concrete input: a base64 body interspersed with
whitespace is stripped to the bare alphabet and the server variant pads it
to a multiple of 4. -/
theorem cleanBase64_normalizes_witness :
    cleanBase64 " ab\nc+/ 1\t" = "abc+/1"
    ∧ cleanBase64Server " ab\nc+/ 1\t" = some "abc+/1=="
    ∧ ("abc+/1==".length % 4 = 0) := by
  have h := cleanBase64_normalizes " ab\nc+/ 1\t" (by decide)
  refine ⟨?_, ?_, by decide⟩
  · rw [h.1]
    decide
  · rcases h.2.2.2 (by decide) with ⟨t, ht⟩
    have : cleanBase64Server " ab\nc+/ 1\t" = some "abc+/1==" := by decide
    exact this

theorem data_asString (l : List Char) : (List.asString l).data = l := rfl

theorem asString_ne_empty {l : List Char} (hne : l ≠ []) :
    List.asString l ≠ "" := by
  intro h
  apply hne
  have hd : (List.asString l).data = ("" : String).data := by rw [h]
  simpa [data_asString] using hd

theorem isPrefixOf_false_of_not_mem {pre l : List Char} {a : Char}
    (ha : a ∈ pre) (hl : a ∉ l) : pre.isPrefixOf l = false := by
  cases h : pre.isPrefixOf l with
  | false => rfl
  | true => exact absurd ((List.isPrefixOf_iff_prefix.mp h).subset ha) hl

theorem removeIpfsGatewaySuffix_eq_self {l : List Char} (h : '.' ∉ l) :
    removeIpfsGatewaySuffix l = l := by
  induction l with
  | nil => rfl
  | cons c rest ih =>
    have hp : (".ipfs.".data).isPrefixOf (c :: rest) = false :=
      isPrefixOf_false_of_not_mem (show ('.' ∈ (".ipfs.".data)) by decide) h
    unfold removeIpfsGatewaySuffix
    simp only [hp, Bool.false_eq_true, if_false]
    rw [ih (fun hm => h (List.mem_cons_of_mem c hm))]

theorem extractCID_plain {l : List Char} (hne : l ≠ [])
    (hslash : ('/' ∈ l) → False) (hcolon : (':' ∈ l) → False)
    (hdot : ('.' ∈ l) → False) :
    extractCID (List.asString l) = List.asString l := by
  unfold extractCID
  rw [if_neg (asString_ne_empty hne), data_asString]
  have h1 : stripUriScheme l = l := by
    unfold stripUriScheme
    simp only [isPrefixOf_false_of_not_mem (show (':' ∈ ("ipfs://".data)) by decide) hcolon,
      isPrefixOf_false_of_not_mem (show (':' ∈ ("https://".data)) by decide) hcolon,
      isPrefixOf_false_of_not_mem (show (':' ∈ ("http://".data)) by decide) hcolon,
      Bool.false_eq_true, if_false]
  rw [h1, removeIpfsGatewaySuffix_eq_self hdot]
  have h3 : stripIpfsPathPrefix l = l := by
    unfold stripIpfsPathPrefix
    simp only [isPrefixOf_false_of_not_mem (show ('/' ∈ ("/ipfs/".data)) by decide) hslash,
      Bool.false_eq_true, if_false]
  rw [h3]
  rw [List.takeWhile_eq_self_iff.mpr ?_]
  intro a ha
  simp only [bne_iff_ne, ne_eq]
  intro hav
  exact hslash (hav ▸ ha)

theorem isBase58Char_fallback {c : Char} (h : isBase58Char c = true) :
    isCidFallbackChar c = true := by
  simp only [isBase58Char, Bool.or_eq_true, Bool.and_eq_true,
    decide_eq_true_eq] at h
  simp only [isCidFallbackChar, Bool.or_eq_true, Bool.and_eq_true,
    decide_eq_true_eq, beq_iff_eq]
  omega

theorem isBase58Char_excludes {c : Char} (h : isBase58Char c = true) :
    c ≠ '/' ∧ c ≠ ':' ∧ c ≠ '.' := by
  refine ⟨?_, ?_, ?_⟩ <;> intro hc <;> subst hc <;> simp [isBase58Char] at h

theorem qm_list_plain {l : List Char} (hb58 : ∀ c ∈ l, isBase58Char c = true) :
    ∀ x : Char, x = '/' ∨ x = ':' ∨ x = '.' → (x ∈ 'Q' :: 'm' :: l) → False := by
  intro x hx hmem
  rcases List.mem_cons.mp hmem with h | hmem
  · rcases hx with h1 | h1 | h1 <;> subst h1 <;> simp at h
  rcases List.mem_cons.mp hmem with h | hmem
  · rcases hx with h1 | h1 | h1 <;> subst h1 <;> simp at h
  · have he := isBase58Char_excludes (hb58 x hmem)
    rcases hx with h1 | h1 | h1 <;> subst h1 <;> simp_all

theorem extractCID_qm {l : List Char} (hb58 : ∀ c ∈ l, isBase58Char c = true) :
    extractCID (List.asString ('Q' :: 'm' :: l)) = List.asString ('Q' :: 'm' :: l) :=
  extractCID_plain (by simp)
    (fun hm => qm_list_plain hb58 '/' (Or.inl rfl) hm)
    (fun hm => qm_list_plain hb58 ':' (Or.inr (Or.inl rfl)) hm)
    (fun hm => qm_list_plain hb58 '.' (Or.inr (Or.inr rfl)) hm)

theorem isValidCID_eval_qm {l : List Char}
    (hb58 : ∀ c ∈ l, isBase58Char c = true) :
    isValidCID (List.asString ('Q' :: 'm' :: l))
      = isValidCIDAux ('Q' :: 'm' :: l) := by
  unfold isValidCID
  rw [if_neg (asString_ne_empty (by simp)), extractCID_qm hb58, data_asString]

/-- Counterexample to claim C4 as stated: the claim requires the validator to
reject the 46-character `Qm` CID truncated to length 45, but the truncated
string falls through every prefix branch and is accepted by the generic
length-and-charset fallback (api.ts lines 396-404). -/
theorem isValidCID_truncation_counterexample :
    (List.asString ('Q' :: 'm' :: List.replicate 43 'a')).length = 45
    ∧ isValidCID (List.asString ('Q' :: 'm' :: List.replicate 43 'a')) = true := by
  constructor
  · decide
  · decide

/-- Claim C4 (amended): the validator accepts every 46-character string
consisting of `Qm` followed by 44 base58btc characters and rejects it when one
of those 44 base58 characters is replaced by `0` (which is outside the base58
alphabet); the truncation to length 45, however, is not rejected: it is
accepted by the generic fallback branch for unrecognized prefixes. -/
theorem isValidCID_qm_cases (l : List Char)
    (hlen : l.length = 44) (hb58 : ∀ c ∈ l, isBase58Char c = true) :
    isValidCID (List.asString ('Q' :: 'm' :: l)) = true
    ∧ (∀ i, i < 44 →
        isValidCID (List.asString ('Q' :: 'm' :: l.set i '0')) = false)
    ∧ isValidCID (List.asString ('Q' :: 'm' :: l.take 43)) = true := by
  have hqm : ("Qm".data) = ['Q', 'm'] := rfl
  refine ⟨?_, ?_, ?_⟩
  · rw [isValidCID_eval_qm hb58]
    simp only [isValidCIDAux, hqm, List.isPrefixOf, beq_self_eq_true,
      Bool.true_and, List.isPrefixOf_nil_left, List.length_cons, hlen]
    rw [if_pos (by decide)]
    simp only [List.drop_succ_cons, List.drop_zero]
    exact List.all_eq_true.mpr hb58
  · intro i hi
    have hmem : ∀ c ∈ l.set i '0', isBase58Char c = true ∨ c = '0' := by
      intro c hc
      rcases List.mem_or_eq_of_mem_set hc with h | h
      · exact Or.inl (hb58 c h)
      · exact Or.inr h
    have hb58' : ∀ x : Char, x = '/' ∨ x = ':' ∨ x = '.' →
        (x ∈ 'Q' :: 'm' :: l.set i '0') → False := by
      intro x hx hmemx
      rcases List.mem_cons.mp hmemx with h | hmemx
      · rcases hx with h1 | h1 | h1 <;> subst h1 <;> simp at h
      rcases List.mem_cons.mp hmemx with h | hmemx
      · rcases hx with h1 | h1 | h1 <;> subst h1 <;> simp at h
      · rcases hmem x hmemx with h | h
        · have he := isBase58Char_excludes h
          rcases hx with h1 | h1 | h1 <;> subst h1 <;> simp_all
        · subst h
          rcases hx with h1 | h1 | h1 <;> simp at h1
    have hex : extractCID (List.asString ('Q' :: 'm' :: l.set i '0'))
        = List.asString ('Q' :: 'm' :: l.set i '0') :=
      extractCID_plain (by simp)
        (fun hm => hb58' '/' (Or.inl rfl) hm)
        (fun hm => hb58' ':' (Or.inr (Or.inl rfl)) hm)
        (fun hm => hb58' '.' (Or.inr (Or.inr rfl)) hm)
    unfold isValidCID
    rw [if_neg (asString_ne_empty (by simp)), hex, data_asString]
    have hlen' : (l.set i '0').length = 44 := by
      rw [List.length_set]; exact hlen
    simp only [isValidCIDAux, hqm, List.isPrefixOf, beq_self_eq_true,
      Bool.true_and, List.isPrefixOf_nil_left, List.length_cons, hlen']
    rw [if_pos (by decide)]
    simp only [List.drop_succ_cons, List.drop_zero]
    rw [Bool.eq_false_iff]
    intro hall
    have hilt : i < (l.set i '0').length := by omega
    have h0mem : '0' ∈ l.set i '0' := by
      have h0 : (l.set i '0')[i] = '0' := List.getElem_set_self hilt
      nth_rewrite 2 [← h0]
      exact List.getElem_mem hilt
    have := List.all_eq_true.mp hall '0' h0mem
    simp [isBase58Char] at this
  · have hb58t : ∀ c ∈ l.take 43, isBase58Char c = true :=
      fun c hc => hb58 c (List.mem_of_mem_take hc)
    rw [isValidCID_eval_qm hb58t]
    have hlent : (l.take 43).length = 43 := by
      rw [List.length_take]; omega
    simp only [isValidCIDAux, hqm, List.isPrefixOf, beq_self_eq_true,
      Bool.true_and, List.isPrefixOf_nil_left, List.length_cons, hlent]
    rw [if_neg (by decide)]
    rw [if_neg (by decide), if_neg (by decide), if_neg (by decide),
      if_neg (by decide), if_neg (by decide), if_neg (by decide),
      if_neg (by decide), if_neg (by decide)]
    refine List.all_eq_true.mpr ?_
    intro c hc
    rcases List.mem_cons.mp hc with h | hc
    · subst h; decide
    rcases List.mem_cons.mp hc with h | hc
    · subst h; decide
    · exact isBase58Char_fallback (hb58t c hc)

/-- Witness for (amended) C4 at the concrete payload of 44 `a` characters. -/
theorem isValidCID_qm_cases_witness :
    isValidCID (List.asString ('Q' :: 'm' :: List.replicate 44 'a')) = true
    ∧ isValidCID
        (List.asString ('Q' :: 'm' :: (List.replicate 44 'a').set 0 '0')) = false
    ∧ isValidCID
        (List.asString ('Q' :: 'm' :: (List.replicate 44 'a').take 43)) = true :=
  ⟨(isValidCID_qm_cases (List.replicate 44 'a') (by decide) (by decide)).1,
   (isValidCID_qm_cases (List.replicate 44 'a') (by decide) (by decide)).2.1 0
     (by decide),
   (isValidCID_qm_cases (List.replicate 44 'a') (by decide) (by decide)).2.2⟩

theorem stripLeadingSlash_eq_self {l : List Char} (h : ('/' ∈ l) → False) :
    stripLeadingSlash l = l := by
  cases l with
  | nil => rfl
  | cons a rest =>
    have ha : a ≠ '/' := fun he => h (he ▸ List.mem_cons_self a rest)
    simp [stripLeadingSlash, ha]

/-- Claim C9: the single-gateway builder throws `Invalid CID: <input>` for
every identifier whose cleaned form fails the validity check, and for a valid
cleaned identifier returns `https://<id>.ipfs.<gateway>`, appending
`/<url-encoded fileName>` when a (non-empty, slash-free) file name is given. -/
theorem createGatewayURL_spec (cid gateway : String) (filename : Option String) :
    (isValidCID (extractCID cid) = false →
      createGatewayURL cid filename gateway
        = Except.error ("Invalid CID: " ++ cid))
    ∧ (isValidCID (extractCID cid) = true →
        createGatewayURL cid none gateway
          = Except.ok ("https://" ++ extractCID cid ++ ".ipfs." ++ gateway)
        ∧ (∀ fn, filename = some fn → fn ≠ "" → (('/' ∈ fn.data) → False) →
            createGatewayURL cid filename gateway
              = Except.ok ("https://" ++ extractCID cid ++ ".ipfs." ++ gateway
                  ++ "/" ++ encodeURIComponent fn))) := by
  constructor
  · intro hinvalid
    unfold createGatewayURL
    simp only [hinvalid, Bool.not_false, if_pos]
  · intro hvalid
    constructor
    · unfold createGatewayURL
      simp only [hvalid, Bool.not_true, Bool.false_eq_true, if_false]
    · intro fn hfn hne hslash
      subst hfn
      unfold createGatewayURL
      simp only [hvalid, Bool.not_true, Bool.false_eq_true, if_false]
      rw [if_neg hne]
      rw [stripLeadingSlash_eq_self hslash]
      rfl

/-- Witness for C9: a concrete valid v0 identifier composes the gateway URL,
with a file name containing a space percent-encoded; a concrete short
identifier is rejected with the `Invalid CID` error. -/
theorem createGatewayURL_spec_witness :
    createGatewayURL "Qmaaaaaaaaaaaaaaaaaaaaaaaaaaaaaaaaaaaaaaaaaaaa"
        (some "my pic.png") "dweb.link"
      = Except.ok
          ("https://Qmaaaaaaaaaaaaaaaaaaaaaaaaaaaaaaaaaaaaaaaaaaaa.ipfs.dweb.link/my%20pic.png")
    ∧ createGatewayURL "shortid" none "dweb.link"
      = Except.error ("Invalid CID: shortid") := by
  constructor
  · have h := (createGatewayURL_spec "Qmaaaaaaaaaaaaaaaaaaaaaaaaaaaaaaaaaaaaaaaaaaaa"
      "dweb.link" (some "my pic.png")).2 (by decide)
    have h2 := h.2 "my pic.png" rfl (by decide) (by decide)
    rw [h2]
    have hex : extractCID "Qmaaaaaaaaaaaaaaaaaaaaaaaaaaaaaaaaaaaaaaaaaaaa"
        = "Qmaaaaaaaaaaaaaaaaaaaaaaaaaaaaaaaaaaaaaaaaaaaa" := by decide
    rw [hex]
    have henc : encodeURIComponent "my pic.png" = "my%20pic.png" := by decide
    rw [henc]
    exact congrArg Except.ok (by decide)
  · exact (createGatewayURL_spec "shortid" "dweb.link" none).1 (by decide)

/-- Claim C10: the multi-gateway builder is total — it returns `[]` when the
cleaned identifier fails validation instead of throwing — and for a valid
cleaned identifier it returns exactly five URLs, one per entry of the fixed
gateway list in order, each `https://<id>.ipfs.<gateway>` with the optional
url-encoded (non-empty, slash-free) file name appended. -/
theorem createGatewayURLs_spec (cid : String) (filename : Option String) :
    (isValidCID (extractCID cid) = false → createGatewayURLs cid filename = [])
    ∧ (isValidCID (extractCID cid) = true →
        (createGatewayURLs cid filename).length = gatewayList.length
        ∧ (filename = none →
            createGatewayURLs cid filename
              = ["https://" ++ extractCID cid ++ ".ipfs." ++ "dweb.link",
                 "https://" ++ extractCID cid ++ ".ipfs." ++ "w3s.link",
                 "https://" ++ extractCID cid ++ ".ipfs." ++ "ipfs.io",
                 "https://" ++ extractCID cid ++ ".ipfs." ++ "cloudflare-ipfs.com",
                 "https://" ++ extractCID cid ++ ".ipfs." ++ "gateway.pinata.cloud"])
        ∧ (∀ fn, filename = some fn → fn ≠ "" → (('/' ∈ fn.data) → False) →
            createGatewayURLs cid filename
              = ["https://" ++ extractCID cid ++ ".ipfs." ++ "dweb.link" ++ "/"
                   ++ encodeURIComponent fn,
                 "https://" ++ extractCID cid ++ ".ipfs." ++ "w3s.link" ++ "/"
                   ++ encodeURIComponent fn,
                 "https://" ++ extractCID cid ++ ".ipfs." ++ "ipfs.io" ++ "/"
                   ++ encodeURIComponent fn,
                 "https://" ++ extractCID cid ++ ".ipfs." ++ "cloudflare-ipfs.com"
                   ++ "/" ++ encodeURIComponent fn,
                 "https://" ++ extractCID cid ++ ".ipfs." ++ "gateway.pinata.cloud"
                   ++ "/" ++ encodeURIComponent fn])) := by
  constructor
  · intro hinvalid
    unfold createGatewayURLs
    simp only [hinvalid, Bool.not_false, if_pos]
  · intro hvalid
    refine ⟨?_, ?_, ?_⟩
    · unfold createGatewayURLs
      simp only [hvalid, Bool.not_true, Bool.false_eq_true, if_false,
        List.length_map]
    · intro hnone
      subst hnone
      unfold createGatewayURLs gatewayList
      simp only [hvalid, Bool.not_true, Bool.false_eq_true, if_false,
        List.map_cons, List.map_nil]
    · intro fn hfn hne hslash
      subst hfn
      unfold createGatewayURLs gatewayList
      simp only [hvalid, Bool.not_true, Bool.false_eq_true, if_false,
        List.map_cons, List.map_nil]
      rw [stripLeadingSlash_eq_self hslash]
      simp only [if_neg hne]
      rfl

/-- Witness for C10: the same concrete valid identifier yields the five
gateway URLs in order; the invalid identifier yields the empty list. -/
theorem createGatewayURLs_spec_witness :
    createGatewayURLs "Qmaaaaaaaaaaaaaaaaaaaaaaaaaaaaaaaaaaaaaaaaaaaa" none
      = ["https://Qmaaaaaaaaaaaaaaaaaaaaaaaaaaaaaaaaaaaaaaaaaaaa.ipfs.dweb.link",
         "https://Qmaaaaaaaaaaaaaaaaaaaaaaaaaaaaaaaaaaaaaaaaaaaa.ipfs.w3s.link",
         "https://Qmaaaaaaaaaaaaaaaaaaaaaaaaaaaaaaaaaaaaaaaaaaaa.ipfs.ipfs.io",
         "https://Qmaaaaaaaaaaaaaaaaaaaaaaaaaaaaaaaaaaaaaaaaaaaa.ipfs.cloudflare-ipfs.com",
         "https://Qmaaaaaaaaaaaaaaaaaaaaaaaaaaaaaaaaaaaaaaaaaaaa.ipfs.gateway.pinata.cloud"]
    ∧ createGatewayURLs "shortid" none = [] := by
  constructor
  · have h := ((createGatewayURLs_spec
      "Qmaaaaaaaaaaaaaaaaaaaaaaaaaaaaaaaaaaaaaaaaaaaa" none).2 (by decide)).2.1 rfl
    rw [h]
    have hex : extractCID "Qmaaaaaaaaaaaaaaaaaaaaaaaaaaaaaaaaaaaaaaaaaaaa"
        = "Qmaaaaaaaaaaaaaaaaaaaaaaaaaaaaaaaaaaaaaaaaaaaa" := by decide
    rw [hex]
    decide
  · exact (createGatewayURLs_spec "shortid" none).1 (by decide)

/-- Claim C7: through the retrying delegation fetch with the source defaults
(`maxRetries = 3`), at most 3 calls are made; the delay awaited before the
k-th call is `delay * 2 ^ (k - 1)` (exponential backoff); whenever the first
`j < 3` attempts all fail with retryable errors (transport errors without a
status or non-400/401/403 responses), attempt `j` is still made; an error
with status 400, 401 or 403 is re-thrown at once and is never followed by
another call; and every call that is followed by another call failed with a
retryable error. -/
theorem getDelegationWithRetry_spec
    (oracle : Nat → Except APIErrorM DelegationResponseM) (d : Nat) :
    (getDelegationWithRetry oracle 3 d).calls ≤ 3
    ∧ (getDelegationWithRetry oracle 3 d).delays
        = (((List.range (getDelegationWithRetry oracle 3 d).calls).drop 1).map
            (fun k => d * 2 ^ (k - 1)))
    ∧ (∀ j, j < 3 →
        (∀ k, k < j → ∃ e, oracle k = Except.error e ∧ isNonRetryable e = false) →
        j < (getDelegationWithRetry oracle 3 d).calls)
    ∧ (∀ k e, k < (getDelegationWithRetry oracle 3 d).calls →
        oracle k = Except.error e → isNonRetryable e = true →
        (getDelegationWithRetry oracle 3 d).result = Except.error e
          ∧ (getDelegationWithRetry oracle 3 d).calls = k + 1)
    ∧ (∀ k, k + 1 < (getDelegationWithRetry oracle 3 d).calls →
        ∃ e, oracle k = Except.error e ∧ isNonRetryable e = false) := by
  cases h0 : oracle 0 with
  | ok r0 =>
    have ht : getDelegationWithRetry oracle 3 d = ⟨Except.ok r0, 1, []⟩ := by
      simp [getDelegationWithRetry, retryLoop, h0]
    refine ⟨by simp [ht], by rw [ht]; rfl, ?_, ?_, ?_⟩
    · intro j hj hall
      rw [ht]
      by_contra hlt
      have hj1 : 0 < j := by simp at hlt; omega
      obtain ⟨e, he, _⟩ := hall 0 hj1
      rw [h0] at he
      simp at he
    · intro k e hk he _
      rw [ht] at hk
      simp at hk
      subst hk
      rw [h0] at he
      simp at he
    · intro k hk
      rw [ht] at hk
      simp at hk
  | error e0 =>
    cases hb0 : isNonRetryable e0 with
    | true =>
      have ht : getDelegationWithRetry oracle 3 d = ⟨Except.error e0, 1, []⟩ := by
        simp [getDelegationWithRetry, retryLoop, h0, hb0]
      refine ⟨by simp [ht], by rw [ht]; rfl, ?_, ?_, ?_⟩
      · intro j hj hall
        rw [ht]
        by_contra hlt
        have hj1 : 0 < j := by simp at hlt; omega
        obtain ⟨e, he, hf⟩ := hall 0 hj1
        rw [h0] at he
        simp only [Except.error.injEq] at he
        subst he
        rw [hb0] at hf
        simp at hf
      · intro k e hk he _
        rw [ht] at hk ⊢
        simp at hk
        subst hk
        rw [h0] at he
        simp only [Except.error.injEq] at he
        subst he
        exact ⟨rfl, rfl⟩
      · intro k hk
        rw [ht] at hk
        simp at hk
    | false =>
      cases h1 : oracle 1 with
      | ok r1 =>
        have ht : getDelegationWithRetry oracle 3 d
            = ⟨Except.ok r1, 2, [d * 2 ^ 0]⟩ := by
          simp [getDelegationWithRetry, retryLoop, h0, hb0, h1]
        refine ⟨by simp [ht], by rw [ht]; rfl, ?_, ?_, ?_⟩
        · intro j hj hall
          rw [ht]
          by_contra hlt
          have hj2 : 1 < j := by simp at hlt; omega
          obtain ⟨e, he, _⟩ := hall 1 hj2
          rw [h1] at he
          simp at he
        · intro k e hk he hbad
          rw [ht] at hk
          simp at hk
          have hk01 : k = 0 ∨ k = 1 := by omega
          rcases hk01 with hk0 | hk1
          · subst hk0
            rw [h0] at he
            simp only [Except.error.injEq] at he
            subst he
            rw [hb0] at hbad
            simp at hbad
          · subst hk1
            rw [h1] at he
            simp at he
        · intro k hk
          rw [ht] at hk
          simp at hk
          have hk0 : k = 0 := by omega
          subst hk0
          exact ⟨e0, h0, hb0⟩
      | error e1 =>
        cases hb1 : isNonRetryable e1 with
        | true =>
          have ht : getDelegationWithRetry oracle 3 d
              = ⟨Except.error e1, 2, [d * 2 ^ 0]⟩ := by
            simp [getDelegationWithRetry, retryLoop, h0, hb0, h1, hb1]
          refine ⟨by simp [ht], by rw [ht]; rfl, ?_, ?_, ?_⟩
          · intro j hj hall
            rw [ht]
            by_contra hlt
            have hj2 : 1 < j := by simp at hlt; omega
            obtain ⟨e, he, hf⟩ := hall 1 hj2
            rw [h1] at he
            simp only [Except.error.injEq] at he
            subst he
            rw [hb1] at hf
            simp at hf
          · intro k e hk he hbad
            rw [ht] at hk ⊢
            simp at hk
            have hk01 : k = 0 ∨ k = 1 := by omega
            rcases hk01 with hk0 | hk1
            · subst hk0
              rw [h0] at he
              simp only [Except.error.injEq] at he
              subst he
              rw [hb0] at hbad
              simp at hbad
            · subst hk1
              rw [h1] at he
              simp only [Except.error.injEq] at he
              subst he
              exact ⟨rfl, rfl⟩
          · intro k hk
            rw [ht] at hk
            simp at hk
            have hk0 : k = 0 := by omega
            subst hk0
            exact ⟨e0, h0, hb0⟩
        | false =>
          cases h2 : oracle 2 with
          | ok r2 =>
            have ht : getDelegationWithRetry oracle 3 d
                = ⟨Except.ok r2, 3, [d * 2 ^ 0, d * 2 ^ 1]⟩ := by
              simp [getDelegationWithRetry, retryLoop, h0, hb0, h1, hb1, h2]
            refine ⟨by simp [ht], by rw [ht]; rfl, ?_, ?_, ?_⟩
            · intro j hj _
              rw [ht]
              exact hj
            · intro k e hk he hbad
              rw [ht] at hk
              simp at hk
              have hk012 : k = 0 ∨ k = 1 ∨ k = 2 := by omega
              rcases hk012 with hk0 | hk1 | hk2
              · subst hk0
                rw [h0] at he
                simp only [Except.error.injEq] at he
                subst he
                rw [hb0] at hbad
                simp at hbad
              · subst hk1
                rw [h1] at he
                simp only [Except.error.injEq] at he
                subst he
                rw [hb1] at hbad
                simp at hbad
              · subst hk2
                rw [h2] at he
                simp at he
            · intro k hk
              rw [ht] at hk
              simp at hk
              have hk01 : k = 0 ∨ k = 1 := by omega
              rcases hk01 with hk0 | hk1
              · subst hk0
                exact ⟨e0, h0, hb0⟩
              · subst hk1
                exact ⟨e1, h1, hb1⟩
          | error e2 =>
            have ht : getDelegationWithRetry oracle 3 d
                = ⟨Except.error e2, 3, [d * 2 ^ 0, d * 2 ^ 1]⟩ := by
              simp [getDelegationWithRetry, retryLoop, h0, hb0, h1, hb1, h2]
            refine ⟨by simp [ht], by rw [ht]; rfl, ?_, ?_, ?_⟩
            · intro j hj _
              rw [ht]
              exact hj
            · intro k e hk he hbad
              rw [ht] at hk ⊢
              simp at hk
              have hk012 : k = 0 ∨ k = 1 ∨ k = 2 := by omega
              rcases hk012 with hk0 | hk1 | hk2
              · subst hk0
                rw [h0] at he
                simp only [Except.error.injEq] at he
                subst he
                rw [hb0] at hbad
                simp at hbad
              · subst hk1
                rw [h1] at he
                simp only [Except.error.injEq] at he
                subst he
                rw [hb1] at hbad
                simp at hbad
              · subst hk2
                rw [h2] at he
                simp only [Except.error.injEq] at he
                subst he
                exact ⟨rfl, rfl⟩
            · intro k hk
              rw [ht] at hk
              simp at hk
              have hk01 : k = 0 ∨ k = 1 := by omega
              rcases hk01 with hk0 | hk1
              · subst hk0
                exact ⟨e0, h0, hb0⟩
              · subst hk1
                exact ⟨e1, h1, hb1⟩

/-- Witness for C7: with a retryable 500 failure on the first call, the fetch
is retried (a second call happens) and stays within the 3-attempt bound. -/
theorem getDelegationWithRetry_spec_witness :
    (getDelegationWithRetry retryWitnessOracle 3 1000).calls ≤ 3
    ∧ 1 < (getDelegationWithRetry retryWitnessOracle 3 1000).calls :=
  ⟨(getDelegationWithRetry_spec retryWitnessOracle 1000).1,
   (getDelegationWithRetry_spec retryWitnessOracle 1000).2.2.1 1 (by decide)
     (by
        intro k hk
        have hk0 : k = 0 := by omega
        subst hk0
        exact ⟨⟨some 500, "HTTP 500: server error"⟩, rfl, rfl⟩)⟩

theorem string_data_append (s t : String) : (s ++ t).data = s.data ++ t.data := by
  cases s
  cases t
  rfl

theorem string_ext {s t : String} (h : s.data = t.data) : s = t := by
  cases s
  cases t
  exact congrArg String.mk h

theorem digitChar10_toNat {m : Nat} (h : m < 10) :
    (digitChar10 m).toNat = 48 + m := by
  interval_cases m <;> decide

theorem natDecimalAux_digits :
    ∀ fuel n, n < fuel → ∀ c ∈ natDecimalAux fuel n,
      48 ≤ c.toNat ∧ c.toNat ≤ 57 := by
  intro fuel
  induction fuel with
  | zero => intro n hn; omega
  | succ fuel ih =>
    intro n hn c hc
    unfold natDecimalAux at hc
    by_cases h10 : n < 10
    · simp only [h10, if_pos] at hc
      simp only [List.mem_singleton] at hc
      subst hc
      have := digitChar10_toNat h10
      omega
    · simp only [h10, if_neg, Bool.false_eq_true, not_false_iff] at hc
      rcases List.mem_append.mp hc with h1 | h1
      · have hdiv : n / 10 < fuel := by
          have : n / 10 < n := Nat.div_lt_self (by omega) (by omega)
          omega
        exact ih (n / 10) hdiv c h1
      · simp only [List.mem_singleton] at h1
        subst h1
        have hm : n % 10 < 10 := Nat.mod_lt _ (by omega)
        have := digitChar10_toNat hm
        omega

theorem decVal_append_digit (l : List Char) (c : Char) :
    decVal (l ++ [c]) = decVal l * 10 + (c.toNat - 48) := by
  unfold decVal
  rw [List.foldl_append]
  rfl

theorem natDecimalAux_val :
    ∀ fuel n, n < fuel → decVal (natDecimalAux fuel n) = n := by
  intro fuel
  induction fuel with
  | zero => intro n hn; omega
  | succ fuel ih =>
    intro n hn
    unfold natDecimalAux
    by_cases h10 : n < 10
    · simp only [h10, if_pos]
      unfold decVal
      simp only [List.foldl_cons, List.foldl_nil]
      have := digitChar10_toNat h10
      omega
    · simp only [h10, if_neg, not_false_iff]
      rw [decVal_append_digit]
      have hdiv : n / 10 < fuel := by
        have : n / 10 < n := Nat.div_lt_self (by omega) (by omega)
        omega
      rw [ih (n / 10) hdiv]
      have hm : n % 10 < 10 := Nat.mod_lt _ (by omega)
      have := digitChar10_toNat hm
      have := Nat.div_add_mod n 10
      omega

theorem natDecimal_val (n : Nat) : decVal (natDecimal n) = n :=
  natDecimalAux_val (n + 1) n (by omega)

theorem natDecimal_inj {a b : Nat} (h : natDecimal a = natDecimal b) : a = b := by
  have := congrArg decVal h
  rwa [natDecimal_val, natDecimal_val] at this

theorem natDecimal_no_dash (n : Nat) : ('-' ∈ natDecimal n) → False := by
  intro hm
  have := natDecimalAux_digits (n + 1) n (by omega) '-' hm
  simp at this

theorem append_dash_inj :
    ∀ {l1 l2 r1 r2 : List Char}, (('-' ∈ l1) → False) → (('-' ∈ l2) → False) →
      l1 ++ '-' :: r1 = l2 ++ '-' :: r2 → l1 = l2 ∧ r1 = r2 := by
  intro l1
  induction l1 with
  | nil =>
    intro l2 r1 r2 _ h2 he
    cases l2 with
    | nil => simpa using he
    | cons b t =>
      simp only [List.nil_append, List.cons_append, List.cons.injEq] at he
      exact absurd (he.1 ▸ List.mem_cons_self b t) (fun hmm => h2 hmm)
  | cons a t ih =>
    intro l2 r1 r2 h1 h2 he
    cases l2 with
    | nil =>
      simp only [List.nil_append, List.cons_append, List.cons.injEq] at he
      exact absurd (he.1 ▸ List.mem_cons_self a t) (fun hmm => h1 (by simp_all))
    | cons b t2 =>
      simp only [List.cons_append, List.cons.injEq] at he
      obtain ⟨hab, hrest⟩ := he
      have := ih (fun hm => h1 (List.mem_cons_of_mem a hm))
        (fun hm => h2 (List.mem_cons_of_mem b hm)) hrest
      exact ⟨by rw [hab, this.1], this.2⟩

/-- Counterexample to claim C5 as stated: the id depends only on the start
millisecond and the file name, so two upload invocations that start in the
same millisecond with the same file name receive identical ids — their
progress entries collide instead of being distinct. -/
theorem fileId_collision_counterexample :
    fileId 1700000000000 "photo.png" = "1700000000000-photo.png"
    ∧ fileId 1700000000000 "photo.png" = fileId 1700000000000 "photo.png" := by
  constructor
  · decide
  · rfl

/-- Claim C5 (amended): the per-call id `<Date.now()>-<file.name>` is
injective in the pair (start millisecond, file name): two upload invocations
receive distinct ids whenever their start milliseconds differ or their file
names differ; only two calls sharing both the exact start millisecond and the
file name collide. -/
theorem fileId_pairwise (t1 t2 : Nat) (n1 n2 : String)
    (h : t1 ≠ t2 ∨ n1 ≠ n2) : fileId t1 n1 ≠ fileId t2 n2 := by
  intro he
  have hd : natDecimal t1 ++ '-' :: n1.data = natDecimal t2 ++ '-' :: n2.data :=
    congrArg String.data he
  obtain ⟨hl, hr⟩ :=
    append_dash_inj (natDecimal_no_dash t1) (natDecimal_no_dash t2) hd
  rcases h with h | h
  · exact h (natDecimal_inj hl)
  · exact h (string_ext hr)

/-- Witness for (amended) C5: two uploads one millisecond apart with the same
file name receive distinct ids. -/
theorem fileId_pairwise_witness :
    fileId 1700000000000 "a.png" ≠ fileId 1700000000001 "a.png" :=
  fileId_pairwise 1700000000000 1700000000001 "a.png" "a.png"
    (Or.inl (by omega))

/-- Claim C8: for every successful upload of an image-typed file starting
from an empty persisted uploads list, the produced record keeps the file
size and MIME type, its thumbnail URL is the gateway URL with the
`img-width=300` resize query appended (hence non-empty and containing
`img-width=300`), and the uploads list afterwards is exactly the one-element
list with this record first. -/
theorem uploadFileSuccess_image_spec (file : JsFile) (cidString : String)
    (now uploadedAt : Nat) (description : Option String)
    (himg : jsStartsWith file.type "image/" = true) :
    (uploadFileSuccess file cidString now uploadedAt description []).1.size
      = file.size
    ∧ jsStartsWith
        (uploadFileSuccess file cidString now uploadedAt description []).1.type
        "image/" = true
    ∧ (uploadFileSuccess file cidString now uploadedAt description
        []).1.thumbnailUrl
        = "https://" ++ cidString ++ ".ipfs." ++ DEFAULT_GATEWAY
          ++ "?img-width=300&img-height=300&img-fit=cover"
    ∧ (uploadFileSuccess file cidString now uploadedAt description
        []).1.thumbnailUrl ≠ ""
    ∧ ("img-width=300".data <:+:
        (uploadFileSuccess file cidString now uploadedAt description
          []).1.thumbnailUrl.data)
    ∧ (uploadFileSuccess file cidString now uploadedAt description []).2
        = [(uploadFileSuccess file cidString now uploadedAt description []).1] := by
  have hinfix : "img-width=300".data <:+:
      (uploadFileSuccess file cidString now uploadedAt description
        []).1.thumbnailUrl.data := by
    simp only [uploadFileSuccess, himg, if_true]
    refine ⟨("https://" ++ cidString ++ ".ipfs." ++ DEFAULT_GATEWAY).data
        ++ "?".data, "&img-height=300&img-fit=cover".data, ?_⟩
    rw [string_data_append
      ("https://" ++ cidString ++ ".ipfs." ++ DEFAULT_GATEWAY)
      "?img-width=300&img-height=300&img-fit=cover"]
    have hsplit : ("?img-width=300&img-height=300&img-fit=cover" : String).data
        = "?".data ++ ("img-width=300".data
            ++ "&img-height=300&img-fit=cover".data) := by decide
    rw [hsplit]
    simp [List.append_assoc]
  refine ⟨rfl, himg, ?_, ?_, hinfix, rfl⟩
  · simp only [uploadFileSuccess, himg, if_true]
  · intro heq
    have hd := congrArg String.data heq
    rw [heq] at hinfix
    obtain ⟨s, t, hst⟩ := hinfix
    have : s ++ "img-width=300".data ++ t = [] := hst
    have h1 := List.append_eq_nil.mp this
    have h2 := List.append_eq_nil.mp h1.1
    exact absurd h2.2 (by decide)

/-- Witness for C8 at a concrete 2 MB PNG upload into an empty list. -/
theorem uploadFileSuccess_image_spec_witness :
    (uploadFileSuccess ⟨"cat.png", 2097152, "image/png"⟩ "bafybeib" 5 6 none
      []).1.size = 2097152
    ∧ (uploadFileSuccess ⟨"cat.png", 2097152, "image/png"⟩ "bafybeib" 5 6 none
        []).2
        = [(uploadFileSuccess ⟨"cat.png", 2097152, "image/png"⟩ "bafybeib" 5 6
            none []).1]
    ∧ ("img-width=300".data <:+:
        (uploadFileSuccess ⟨"cat.png", 2097152, "image/png"⟩ "bafybeib" 5 6
          none []).1.thumbnailUrl.data) :=
  ⟨(uploadFileSuccess_image_spec ⟨"cat.png", 2097152, "image/png"⟩ "bafybeib"
      5 6 none (by decide)).1,
   (uploadFileSuccess_image_spec ⟨"cat.png", 2097152, "image/png"⟩ "bafybeib"
      5 6 none (by decide)).2.2.2.2.2,
   (uploadFileSuccess_image_spec ⟨"cat.png", 2097152, "image/png"⟩ "bafybeib"
      5 6 none (by decide)).2.2.2.2.1⟩

theorem infix_append_left {l m : List Char} (pre : List Char)
    (h : l <:+: m) : l <:+: pre ++ m := by
  obtain ⟨s, t, hst⟩ := h
  exact ⟨pre ++ s, t, by rw [← hst]; simp [List.append_assoc]⟩

theorem infix_append_right {l m : List Char} (suf : List Char)
    (h : l <:+: m) : l <:+: m ++ suf := by
  obtain ⟨s, t, hst⟩ := h
  exact ⟨s, t ++ suf, by rw [← hst]; simp [List.append_assoc]⟩

theorem mem_infix_joinCommaSpace :
    ∀ {l : List String} {x : String}, x ∈ l →
      x.data <:+: (joinCommaSpace l).data := by
  intro l
  induction l with
  | nil => intro x hx; simp at hx
  | cons a t ih =>
    intro x hx
    cases t with
    | nil =>
      simp only [List.mem_singleton] at hx
      subst hx
      exact ⟨[], [], by simp [joinCommaSpace]⟩
    | cons b t2 =>
      rcases List.mem_cons.mp hx with hxa | hxt
      · subst hxa
        refine ⟨[], (", " ++ joinCommaSpace (b :: t2)).data, ?_⟩
        show x.data ++ (", " ++ joinCommaSpace (b :: t2)).data
            = (joinCommaSpace (x :: b :: t2)).data
        rw [show joinCommaSpace (x :: b :: t2)
              = x ++ ", " ++ joinCommaSpace (b :: t2) from rfl]
        rw [string_data_append (x ++ ", ") (joinCommaSpace (b :: t2)),
          string_data_append x ", ", string_data_append ", "
            (joinCommaSpace (b :: t2))]
        simp [List.append_assoc]
      · have hin := ih hxt
        rw [show joinCommaSpace (a :: b :: t2)
              = a ++ ", " ++ joinCommaSpace (b :: t2) from rfl]
        rw [string_data_append (a ++ ", ") (joinCommaSpace (b :: t2))]
        exact infix_append_left _ hin

theorem mem_infix_missingCapsMessage {missing : List String} {cap : String}
    (h : cap ∈ missing) :
    cap.data <:+: (missingCapsMessage missing).data := by
  unfold missingCapsMessage
  rw [string_data_append ("Delegation proof missing required capabilities: "
      ++ joinCommaSpace missing) ". Please regenerate with proper permissions."]
  rw [string_data_append "Delegation proof missing required capabilities: "
      (joinCommaSpace missing)]
  exact infix_append_right _ (infix_append_left _ (mem_infix_joinCommaSpace h))

set_option maxRecDepth 10000 in
/-- Counterexample to claim C1 as stated: the parsed proof's capability list
lacks the required capability `upload/add` (it is not an element of the
list), yet the bootstrap does not fail — the check is a substring test and
the entry `my-upload/add-proxy` passes it — so the grant import and the
namespace activation both run and the session is persisted. -/
theorem loginWithDelegation_substring_counterexample :
    (("upload/add" ∈ ["space/blob/add", "space/index/add",
        "my-upload/add-proxy"]) → False)
    ∧ c1CounterEnv.parseProof (cleanBase64 c1CounterConfig.proof)
        = Except.ok ["space/blob/add", "space/index/add", "my-upload/add-proxy"]
    ∧ (loginWithDelegation c1CounterEnv c1CounterConfig none).effects
        = [SdkEffect.addSpace, SdkEffect.setCurrentSpace "did:key:zSpaceA"]
    ∧ (loginWithDelegation c1CounterEnv c1CounterConfig none).persisted
        = some ⟨"delegation@user", true, some LoginMethod.delegation,
            "did:key:zSpaceA", "did:key:zAgent"⟩ := by
  refine ⟨by decide, rfl, ?_, ?_⟩ <;> rfl

/-- Claim C1 (amended): whenever the parsed proof's capability list lacks a
required capability under the substring test the code performs — no entry
contains it as a substring — the bootstrap fails with the error message
naming each missing capability, performs neither the grant import
(`addSpace`) nor the namespace activation (`setCurrentSpace`), and leaves
the persisted session unchanged; a capability counts as missing exactly when
it is required and no entry contains it as a substring. -/
theorem loginWithDelegation_missing_caps (env : SdkEnv)
    (config : DelegationConfig) (persisted0 : Option UserSession)
    (capabilities : List String)
    (hproof : ¬ (cleanBase64 config.proof = ""
        ∨ (cleanBase64 config.proof).length < 100))
    (hkey : ¬ (jsTrim config.key = ""
        ∨ jsStartsWith (jsTrim config.key) "Mg" = false))
    (hpk : env.parseKey (jsTrim config.key) = Except.ok ())
    (hpp : env.parseProof (cleanBase64 config.proof) = Except.ok capabilities)
    (hmiss : missingCapabilities capabilities ≠ []) :
    (loginWithDelegation env config persisted0).outcome
      = Except.error (missingCapsMessage (missingCapabilities capabilities))
    ∧ (∀ cap ∈ missingCapabilities capabilities,
        cap.data <:+:
          (missingCapsMessage (missingCapabilities capabilities)).data)
    ∧ (loginWithDelegation env config persisted0).effects = []
    ∧ (loginWithDelegation env config persisted0).persisted = persisted0
    ∧ (∀ cap, cap ∈ missingCapabilities capabilities ↔
        (cap ∈ requiredCapabilities
          ∧ ∀ c ∈ capabilities, capIncludes c cap = false)) := by
  have hlen : 0 < (missingCapabilities capabilities).length :=
    List.length_pos.mpr hmiss
  have ht : loginWithDelegation env config persisted0
      = ⟨Except.error (missingCapsMessage (missingCapabilities capabilities)),
          [], persisted0⟩ := by
    simp only [loginWithDelegation]
    rw [if_neg hproof, if_neg hkey, hpk, hpp]
    simp only []
    rw [if_pos hlen]
  refine ⟨by rw [ht], fun cap hc => mem_infix_missingCapsMessage hc,
    by rw [ht], by rw [ht], ?_⟩
  intro cap
  unfold missingCapabilities
  rw [List.mem_filter]
  constructor
  · rintro ⟨hreq, hfilt⟩
    refine ⟨hreq, ?_⟩
    intro c hcmem
    simp only [Bool.not_eq_true', List.any_eq_false] at hfilt
    simpa using hfilt c hcmem
  · rintro ⟨hreq, hall⟩
    refine ⟨hreq, ?_⟩
    simp only [Bool.not_eq_true', List.any_eq_false]
    intro x hx
    simp [hall x hx]

/-- Witness for (amended) C1: with `upload/add` missing the bootstrap fails
with the message naming it, performs no SDK effect, and the persisted session
stays untouched. -/
theorem loginWithDelegation_missing_caps_witness :
    (loginWithDelegation c1WitnessEnv c1CounterConfig none).outcome
      = Except.error (missingCapsMessage
          (missingCapabilities ["space/blob/add", "space/index/add"]))
    ∧ (loginWithDelegation c1WitnessEnv c1CounterConfig none).effects = []
    ∧ (loginWithDelegation c1WitnessEnv c1CounterConfig none).persisted
        = none
    ∧ ("upload/add").data <:+: (missingCapsMessage
          (missingCapabilities ["space/blob/add", "space/index/add"])).data :=
  have h := loginWithDelegation_missing_caps c1WitnessEnv c1CounterConfig none
    ["space/blob/add", "space/index/add"] (by decide) (by decide) rfl rfl
    (by decide)
  ⟨h.1, h.2.2.1, h.2.2.2.1, h.2.1 "upload/add" (by decide)⟩

/-- Claim C6: whenever the bootstrap reaches the space-selection stage (the
proof and key pass their checks, both parse, and no required capability is
missing) with a requested space DID that matches none of the enumerated
namespaces, it does not fail as long as at least one namespace is enumerated:
it selects and activates the first enumerated namespace and persists the
session for it; it fails with the `No space available` error exactly when
zero namespaces are enumerated. -/
theorem loginWithDelegation_space_fallback (env : SdkEnv)
    (config : DelegationConfig) (persisted0 : Option UserSession)
    (capabilities : List String) (d : String)
    (hproof : ¬ (cleanBase64 config.proof = ""
        ∨ (cleanBase64 config.proof).length < 100))
    (hkey : ¬ (jsTrim config.key = ""
        ∨ jsStartsWith (jsTrim config.key) "Mg" = false))
    (hpk : env.parseKey (jsTrim config.key) = Except.ok ())
    (hpp : env.parseProof (cleanBase64 config.proof) = Except.ok capabilities)
    (hmiss : missingCapabilities capabilities = [])
    (hreq : config.spaceDid = some d)
    (hnf : ∀ s ∈ env.spacesAfterAdd, (s == d) = false) :
    (env.spacesAfterAdd = [] →
      (loginWithDelegation env config persisted0).outcome
        = Except.error
            "No space available. The provided proof may not delegate access to a usable space, or the client failed to initialize it."
      ∧ (loginWithDelegation env config persisted0).effects
          = [SdkEffect.addSpace]
      ∧ (loginWithDelegation env config persisted0).persisted = persisted0)
    ∧ (∀ s0 rest, env.spacesAfterAdd = s0 :: rest →
        (loginWithDelegation env config persisted0).outcome
          = Except.ok ⟨"delegation@user", true, some LoginMethod.delegation,
              s0, env.agentDid⟩
        ∧ (loginWithDelegation env config persisted0).effects
            = [SdkEffect.addSpace, SdkEffect.setCurrentSpace s0]
        ∧ (loginWithDelegation env config persisted0).persisted
            = some ⟨"delegation@user", true, some LoginMethod.delegation,
                s0, env.agentDid⟩) := by
  have hnotlen : ¬ 0 < (missingCapabilities capabilities).length := by
    rw [hmiss]
    simp
  constructor
  · intro hempty
    have ht : loginWithDelegation env config persisted0
        = ⟨Except.error
              "No space available. The provided proof may not delegate access to a usable space, or the client failed to initialize it.",
            [SdkEffect.addSpace], persisted0⟩ := by
      simp only [loginWithDelegation]
      rw [if_neg hproof, if_neg hkey, hpk, hpp]
      simp only []
      rw [if_neg hnotlen, hreq, hempty]
      rfl
    exact ⟨by rw [ht], by rw [ht], by rw [ht]⟩
  · intro s0 rest hcons
    have hfind : (s0 :: rest).find? (fun s => s == d) = none := by
      rw [← hcons]
      exact List.find?_eq_none.mpr (fun x hx => by simp [hnf x hx])
    have ht : loginWithDelegation env config persisted0
        = ⟨Except.ok ⟨"delegation@user", true, some LoginMethod.delegation,
              s0, env.agentDid⟩,
            [SdkEffect.addSpace, SdkEffect.setCurrentSpace s0],
            some ⟨"delegation@user", true, some LoginMethod.delegation, s0,
              env.agentDid⟩⟩ := by
      simp only [loginWithDelegation]
      rw [if_neg hproof, if_neg hkey, hpk, hpp]
      simp only []
      rw [if_neg hnotlen, hreq, hcons]
      simp only []
      rw [hfind]
      rfl
    exact ⟨by rw [ht], by rw [ht], by rw [ht]⟩

/-- Witness for C6: the bootstrap succeeds, activating the first enumerated
space rather than failing on the unmatched requested DID. -/
theorem loginWithDelegation_space_fallback_witness :
    (loginWithDelegation c6WitnessEnv c6WitnessConfig none).outcome
      = Except.ok ⟨"delegation@user", true, some LoginMethod.delegation,
          "did:key:zFirst", "did:key:zAgent"⟩
    ∧ (loginWithDelegation c6WitnessEnv c6WitnessConfig none).effects
        = [SdkEffect.addSpace, SdkEffect.setCurrentSpace "did:key:zFirst"] :=
  have h := (loginWithDelegation_space_fallback c6WitnessEnv c6WitnessConfig
    none ["space/blob/add", "space/index/add", "upload/add"]
    "did:key:zMissing" (by decide) (by decide) rfl rfl (by decide) rfl
    (by decide)).2 "did:key:zFirst" ["did:key:zSecond"] rfl
  ⟨h.1, h.2.1⟩

/-- Counterexample to claim C2 as stated: a malformed persisted value (a lone
opening brace) makes the load throw — the initializer calls
`JSON.parse(saved)` with no `try`/`catch`, so the `SyntaxError` propagates
instead of being treated as an absent value. -/
theorem loadUserSession_malformed_counterexample :
    loadUserSession (some "\x7b")
      = Except.error "Expected property name in JSON object"
    ∧ (∀ v, loadUserSession (some "\x7b") = Except.ok v → False) := by
  constructor
  · rfl
  · intro v hv
    rw [show loadUserSession (some "\x7b")
        = Except.error "Expected property name in JSON object" from rfl] at hv
    simp at hv

set_option maxRecDepth 20000 in
/-- Claim C2 (amended): loading the persisted Session returns the default
empty session when nothing is stored (and for the falsy empty string), and
returns the parsed stored value when the stored string parses — in
particular, a session persisted by `saveSession` via `JSON.stringify` parses
back to exactly that session's object, as checked on a representative
delegation session; but a malformed stored value does not fall back to the
default: the initializer wraps `JSON.parse` in no `try`/`catch`, so the parse
error propagates out of the load. -/
theorem loadUserSession_spec (s : String) (v : JVal) (e : String) :
    loadUserSession none = Except.ok defaultSessionJ
    ∧ loadUserSession (some "") = Except.ok defaultSessionJ
    ∧ (s ≠ "" → jsonParse s = Except.ok v →
        loadUserSession (some s) = Except.ok v)
    ∧ (s ≠ "" → jsonParse s = Except.error e →
        loadUserSession (some s) = Except.error e)
    ∧ jsonParse (stringifySession demoSession)
        = Except.ok (sessionJVal demoSession)
    ∧ stringifySession demoSession ≠ "" := by
  refine ⟨rfl, rfl, ?_, ?_, by rfl, by decide⟩
  · intro hne hp
    simp [loadUserSession, hne, hp]
  · intro hne hp
    simp [loadUserSession, hne, hp]

set_option maxRecDepth 20000 in
/-- Witness for (amended) C2: the default on an absent value, and an actual
persisted session string parsed back to its object. -/
theorem loadUserSession_spec_witness :
    loadUserSession none = Except.ok defaultSessionJ
    ∧ loadUserSession (some (stringifySession demoSession))
        = Except.ok (sessionJVal demoSession) :=
  have h := loadUserSession_spec (stringifySession demoSession)
    (sessionJVal demoSession) ""
  ⟨h.1, h.2.2.1 (by decide) h.2.2.2.2.1⟩
